import Mathlib

/-!
Verification of the mailrail job-processing engine (ljosa/mailrail).

This file shallowly embeds the core of `mailrail.go` and `checkpoint.go`:
the data model (`Spec`, `Recipient`, `Mailing`), field resolution and
template rendering (`computeSendEmailInput`, `computeSource`,
`computeSubject`), the mangler indirection, the checkpoint store, and the
checkpointed, rate-limited send loop of `processJob`.

External collaborators are embedded at their interfaces:
  * The SES service is modeled by a schedule (`List SendResult`) giving the
    response the service would return to each successive SendEmail call.
  * The persistent queue job is modeled by the outcome of its attribute
    reads (`CheckpointAttr`, the build outcome) and by a predicate giving
    the success of each checkpoint write; the terminal Fail/Finish/Submit
    call is the `Terminal` component of the result.  In the Go code every
    return path of `processJob` performs exactly one terminal call, so the
    terminal call is modeled as the function's result rather than an event.
  * Go stdlib behavior that the code leans on is modeled from the stdlib's
    documented semantics: text/template and html/template rendering with
    the default missingkey option, net/mail's `Address.String`, mime's
    Q/B word encoders and base64.  The repository's own tests pin several
    concrete outputs of these functions and the model reproduces them.

Machine integers do not occur on any modeled path (indices are
non-negative and small); numbers are `Nat`.
-/

/-! ## Data model (`Spec`, `Recipient`, `Mailing`) -/

/-- A recipient of a mailing, with optional per-recipient overrides and the
template context mapping.  JSON decoding is not modeled; the structure
mirrors the Go struct field for field.  The `context` map is modeled as an
association list with the usual first-match lookup. -/
structure Recipient where
  name : String
  addr : String
  fromName : String
  fromAddr : String
  subject : String
  context : List (String × String)
deriving DecidableEq

instance : Inhabited Recipient := ⟨⟨"", "", "", "", "", []⟩⟩

/-- A mail-merge job spec, mirroring the Go `Spec` struct. -/
structure Spec where
  fromName : String
  fromAddr : String
  subject : String
  html : String
  text : String
  recipients : List Recipient
deriving DecidableEq

/-- One part of a compiled Go template, restricted to the fragment the
specs of this system use: literal text, a single context reference
(Go source form: two open braces, a dot, the key, two close braces), and
a two-level field reference (dot key dot field) whose evaluation behavior
on a string-to-string map is modeled below. -/
inductive TmplPart
  | lit (s : String)
  | var (key : String)
  | varField (key field : String)
deriving DecidableEq

/-- The compiled view of a job (`mailing` in the Go source): the parsed
spec plus the compiled text/HTML templates.  `getMailing` compiles a
template exactly when its source string is non-empty, so each template is
an `Option`. -/
structure Mailing where
  spec : Spec
  textTemplate : Option (List TmplPart)
  htmlTemplate : Option (List TmplPart)
deriving DecidableEq

/-- The presence relation `getMailing` (mailrail.go lines 198-221)
guarantees between the parsed spec and the compiled mailing: a template is
compiled exactly when its source is non-empty.  The Go template parsers
themselves are not modeled; template presence is. -/
def wellCompiled (m : Mailing) : Prop :=
  (m.textTemplate.isSome = true ↔ m.spec.text ≠ "") ∧
    (m.htmlTemplate.isSome = true ↔ m.spec.html ≠ "")

instance (m : Mailing) : Decidable (wellCompiled m) := by
  unfold wellCompiled; infer_instance

/-! ## Manglers (mailrail.go lines 31-40 and 338-364)

The Go `Mangler` also carries an optional substitute SES service handle;
service selection is outside the claims, and the service itself is modeled
by the response schedule given to the send loop, so the handle field is
omitted here. -/

structure Mangler where
  shouldSend : Bool
  mangle : String → String

/-- Go `identityAddr`. -/
def identityAddr (addr : String) : String := addr

/-- Go `alwaysAddr`. -/
def alwaysAddr (addr : String) : String → String := fun _ => addr

/-- Mangler that does not interfere with email sending. -/
def DoNotMangle : Mangler := ⟨true, identityAddr⟩

/-- Mangler that prevents emails from being sent. -/
def DoNotSend : Mangler := ⟨false, identityAddr⟩

/-- Mangler that causes all emails to be sent to a particular address. -/
def SendToMe (addr : String) : Mangler := ⟨true, alwaysAddr addr⟩

/-- Mangler that causes all emails to be sent to the SES simulator. -/
def SendToSimulator : Mangler := ⟨true, alwaysAddr "success@simulator.amazonses.com"⟩

/-! ## Template rendering

The Go code calls `Template.Execute` with a `map[string]string` as data and
the default missingkey option.  Per the text/template package semantics:
a reference to a key absent from the map yields the invalid value, which
prints as the literal placeholder text; a field access on a present
(string-typed) value is an execution error; a field access on the invalid
value silently yields the invalid value again.  html/template renders like
text/template but HTML-escapes interpolated values, and (since Go 1.11,
issue 25875) skips untyped nil arguments, so an absent key renders as the
empty string there. -/

/-- First-match lookup in the context association list. -/
def lookupCtx (ctx : List (String × String)) (k : String) : Option String :=
  match ctx with
  | [] => none
  | (k2, v) :: rest => if k2 = k then some v else lookupCtx rest k

/-- Rendering of one template part by text/template `Execute`. -/
def renderTextPart (p : TmplPart) (ctx : List (String × String)) : Except String String :=
  match p with
  | .lit s => .ok s
  | .var k =>
    match lookupCtx ctx k with
    | some v => .ok v
    | none => .ok "<no value>"
  | .varField k _f =>
    match lookupCtx ctx k with
    | some _ => .error "cannot evaluate field in type string"
    | none => .ok "<no value>"

/-- text/template `Execute` over the whole template: parts are rendered in
order; the first error aborts. -/
def renderText (t : List TmplPart) (ctx : List (String × String)) : Except String String :=
  match t with
  | [] => .ok ""
  | p :: rest =>
    match renderTextPart p ctx with
    | .error e => .error e
    | .ok s =>
      match renderText rest ctx with
      | .error e => .error e
      | .ok s2 => .ok (s ++ s2)

/-- html/template's escaping of one interpolated character (the
htmlReplacementTable of the escaper in HTML text context). -/
def htmlEscapeChar (c : Char) : String :=
  if c = '"' then "&#34;"
  else if c = Char.ofNat 39 then "&#39;"
  else if c = '&' then "&amp;"
  else if c = '<' then "&lt;"
  else if c = '>' then "&gt;"
  else if c = Char.ofNat 0 then "�"
  else String.singleton c

/-- html/template's escaping of an interpolated string value. -/
def htmlEscape (s : String) : String := String.join (s.data.map htmlEscapeChar)

/-- Rendering of one template part by html/template `Execute` (escaped
interpolation; an absent key renders as the empty string). -/
def renderHtmlPart (p : TmplPart) (ctx : List (String × String)) : Except String String :=
  match p with
  | .lit s => .ok s
  | .var k =>
    match lookupCtx ctx k with
    | some v => .ok (htmlEscape v)
    | none => .ok ""
  | .varField k _f =>
    match lookupCtx ctx k with
    | some _ => .error "cannot evaluate field in type string"
    | none => .ok ""

/-- html/template `Execute` over the whole template. -/
def renderHtml (t : List TmplPart) (ctx : List (String × String)) : Except String String :=
  match t with
  | [] => .ok ""
  | p :: rest =>
    match renderHtmlPart p ctx with
    | .error e => .error e
    | .ok s =>
      match renderHtml rest ctx with
      | .error e => .error e
      | .ok s2 => .ok (s ++ s2)

/-! ## The source field: net/mail `Address.String` and mime word encoders

`computeSource` formats the from header via Go's `net/mail`
`(*Address).String`, which in turn uses `mime.QEncoding` / `mime.BEncoding`
and standard base64.  These stdlib functions are modeled here faithfully
(function by function) from the stdlib's semantics; the repository's tests
pin three concrete outputs (quoted ASCII name, Q-encoded non-ASCII name at
recipient and job level) that the model reproduces. -/

/-- Whether a rune is outside single-byte UTF-8 (at or above RuneSelf). -/
def isMultibyte (r : Char) : Bool := 0x80 ≤ r.toNat

/-- RFC 5322 VCHAR as net/mail defines it (printable ASCII or multibyte). -/
def isVchar (r : Char) : Bool := (('!' ≤ r) && (r ≤ '~')) || isMultibyte r

/-- Whitespace (space or horizontal tab). -/
def isWSP (r : Char) : Bool := (r = ' ') || (r = '\t')

/-- RFC 5322 qtext: VCHAR minus backslash and double quote. -/
def isQtext (r : Char) : Bool := !(r = '\\') && !(r = '"') && isVchar r

/-- RFC 5322 atext as net/mail defines it: VCHAR minus the specials; a dot
is accepted only when the `dot` flag is set. -/
def isAtext (r : Char) (dot : Bool) : Bool :=
  if r = '.' then dot
  else if r = '(' || r = ')' || r = '<' || r = '>' || r = '[' || r = ']' ||
      r = ':' || r = ';' || r = '@' || r = '\\' || r = ',' || r = '"' then false
  else isVchar r

/-- net/mail `quoteString`: wrap in double quotes; qtext and WSP pass
through, other VCHARs are backslash-escaped, anything else is dropped. -/
def quoteString (s : String) : String :=
  "\"" ++
    String.join (s.data.map fun r =>
      if isQtext r || isWSP r then String.singleton r
      else if isVchar r then "\\" ++ String.singleton r
      else "") ++ "\""

/-- UTF-8 encoding of one character, as a list of byte values. -/
def utf8Bytes (c : Char) : List Nat :=
  let v := c.toNat
  if v < 0x80 then [v]
  else if v < 0x800 then [0xC0 ||| (v >>> 6), 0x80 ||| (v &&& 0x3F)]
  else if v < 0x10000 then
    [0xE0 ||| (v >>> 12), 0x80 ||| ((v >>> 6) &&& 0x3F), 0x80 ||| (v &&& 0x3F)]
  else
    [0xF0 ||| (v >>> 18), 0x80 ||| ((v >>> 12) &&& 0x3F),
      0x80 ||| ((v >>> 6) &&& 0x3F), 0x80 ||| (v &&& 0x3F)]

/-- Uppercase hexadecimal digit, as in mime's upperhex table. -/
def hexDigit (n : Nat) : Char :=
  if n < 10 then Char.ofNat (48 + n) else Char.ofNat (55 + n)

/-- Q-encoding escape of one byte. -/
def qEscByte (b : Nat) : String :=
  String.mk ['=', hexDigit (b >>> 4), hexDigit (b &&& 0xF)]

/-- mime `writeQString` restricted to one character: space becomes an
underscore, printable ASCII other than the three Q-specials passes
through, every other byte of the character is hex-escaped. -/
def qChar (c : Char) : String :=
  if c = ' ' then "_"
  else if ('!' ≤ c) && (c ≤ '~') && !(c = '=') && !(c = '?') && !(c = '_') then
    String.singleton c
  else String.join ((utf8Bytes c).map qEscByte)

/-- The Q-encoded length mime's `qEncode` accounts for one character: 1 for
a plain ASCII byte, 3 per byte otherwise. -/
def qEncLen (c : Char) : Nat :=
  if (' ' ≤ c) && (c ≤ '~') && !(c = '=') && !(c = '?') && !(c = '_') then 1
  else 3 * (utf8Bytes c).length

/-- mime `qEncode` body: encode characters, opening a new encoded-word
(close, space, reopen) whenever the current word's content would exceed
maxContentLen = 63. -/
def qEncodeBody : List Char → Nat → String
  | [], _ => ""
  | c :: cs, cur =>
    if cur + qEncLen c > 63 then
      "?= =?utf-8?q?" ++ qChar c ++ qEncodeBody cs (qEncLen c)
    else qChar c ++ qEncodeBody cs (cur + qEncLen c)

/-- Standard base64 digit. -/
def b64Digit (n : Nat) : Char :=
  if n < 26 then Char.ofNat (65 + n)
  else if n < 52 then Char.ofNat (97 + (n - 26))
  else if n < 62 then Char.ofNat (48 + (n - 52))
  else if n = 62 then '+'
  else '/'

/-- Standard base64 of a byte list, with '=' padding. -/
def base64 : List Nat → String
  | [] => ""
  | [a] => String.mk [b64Digit (a >>> 2), b64Digit ((a &&& 0x3) <<< 4), '=', '=']
  | [a, b] =>
    String.mk [b64Digit (a >>> 2), b64Digit (((a &&& 0x3) <<< 4) ||| (b >>> 4)),
      b64Digit ((b &&& 0xF) <<< 2), '=']
  | a :: b :: c :: rest =>
    String.mk [b64Digit (a >>> 2), b64Digit (((a &&& 0x3) <<< 4) ||| (b >>> 4)),
      b64Digit (((b &&& 0xF) <<< 2) ||| (c >>> 6)), b64Digit (c &&& 0x3F)] ++
      base64 rest

/-- mime `bEncode` chunking: split the character list into maximal runs of
at most maxBase64Len = 45 UTF-8 bytes, never splitting inside a character. -/
def bChunks : List Char → List Char → Nat → List (List Char)
  | [], acc, _ => [acc.reverse]
  | c :: cs, acc, cur =>
    let rl := (utf8Bytes c).length
    if cur + rl ≤ 45 then bChunks cs (c :: acc) (cur + rl)
    else acc.reverse :: bChunks cs [c] rl

/-- mime `bEncode` body: base64 of each chunk, chunks separated by closing
and reopening the encoded-word. -/
def bEncodeBody (cs : List Char) : String :=
  String.intercalate "?= =?utf-8?b?"
    ((bChunks cs [] 0).map fun chunk => base64 (chunk.map utf8Bytes).flatten)

/-- mime `needsEncoding`: any rune outside space..tilde other than tab. -/
def needsEncoding (s : String) : Bool :=
  s.data.any fun b => ((b < ' ') || (b > '~')) && !(b = '\t')

/-- mime `QEncoding.Encode` with charset utf-8. -/
def mimeQEncode (s : String) : String :=
  if needsEncoding s then "=?utf-8?q?" ++ qEncodeBody s.data 0 ++ "?=" else s

/-- mime `BEncoding.Encode` with charset utf-8. -/
def mimeBEncode (s : String) : String :=
  if needsEncoding s then "=?utf-8?b?" ++ bEncodeBody s.data ++ "?=" else s

/-- Split a character list at its last at sign: `some (localPart, domain)`
or `none` when there is no at sign (strings.LastIndex in Address.String). -/
def lastAtSplit : List Char → Option (List Char × List Char)
  | [] => none
  | c :: cs =>
    match lastAtSplit cs with
    | some (l, d) => some (c :: l, d)
    | none => if c = '@' then some ([], cs) else none

/-- Whether net/mail quotes the local part: some character is neither
atext nor an interior dot.  Go checks byte positions; since a dot is one
byte, "interior byte position" and "interior character position" agree. -/
def needQuoteLocal (l : List Char) : Bool :=
  List.enum l |>.any fun (idx, r) =>
    !(isAtext r false) && !((r = '.') && 0 < idx && idx < l.length - 1)

/-- The angle-bracketed address part built by Address.String: local part
(quoted if needed) and domain around the last at sign. -/
def angleAddr (address : String) : String :=
  let (localCs, domain) :=
    match lastAtSplit address.data with
    | some (l, d) => (l, String.mk d)
    | none => (address.data, "")
  let localS :=
    if needQuoteLocal localCs then quoteString (String.mk localCs) else String.mk localCs
  "<" ++ localS ++ "@" ++ domain ++ ">"

/-- net/mail's allPrintable scan over the display name: every rune is a
VCHAR or WSP, and none is multibyte. -/
def allPrintable (s : String) : Bool :=
  s.data.all fun r => (isVchar r || isWSP r) && !isMultibyte r

/-- The RFC 2047 section 5.3 characters that force base64 form (the
strings.ContainsAny set in Address.String). -/
def rfc2047Specials : List Char :=
  [34, 35, 36, 37, 38, 39, 40, 41, 44, 46, 58, 59, 60, 62, 64, 91, 93, 94,
    96, 123, 124, 125, 126].map Char.ofNat

/-- Whether the display name contains one of the base64-forcing specials. -/
def hasEncodedWordSpecial (s : String) : Bool :=
  s.data.any (· ∈ rfc2047Specials)

/-- net/mail `Address.String` for the address and display name that
`computeSource` passes in. -/
def mailAddressString (name address : String) : String :=
  let s := angleAddr address
  if name = "" then s
  else if allPrintable name then quoteString name ++ " " ++ s
  else if hasEncodedWordSpecial name then mimeBEncode name ++ " " ++ s
  else mimeQEncode name ++ " " ++ s

/-! ## Field resolution (mailrail.go lines 294-327) -/

/-- Go `computeSource` (mailrail.go lines 294-318).  Out-of-range indices
do not occur: every call site has `i` below the recipient count. -/
def computeSource (m : Mailing) (i : Nat) : String :=
  let recipient := m.spec.recipients.getD i default
  let fromName :=
    if recipient.fromName ≠ "" then recipient.fromName
    else if m.spec.fromName ≠ "" then m.spec.fromName
    else ""
  let fromAddr :=
    if recipient.fromAddr ≠ "" then recipient.fromAddr else m.spec.fromAddr
  if fromAddr = "" then "<>"
  else if fromName = "" then fromAddr
  else mailAddressString fromName fromAddr

/-- Go `computeSubject` (mailrail.go lines 320-327). -/
def computeSubject (m : Mailing) (i : Nat) : String :=
  let recipient := m.spec.recipients.getD i default
  if recipient.subject ≠ "" then recipient.subject else m.spec.subject

/-! ## The transmission request (`ses.SendEmailInput`)

Mirrors the parts of the AWS SDK structures the code populates.  A
`Content` models `*ses.Content`: the code always stores a non-nil pointer,
so the structure is flat, and the `Data`/`Charset` string pointers inside
it are `Option String` (`none` is a nil pointer, absent from the wire
request). -/

structure Content where
  data : Option String
  charset : Option String
deriving DecidableEq

structure SesBody where
  html : Content
  text : Content
deriving DecidableEq

structure SesMessage where
  subject : Content
  body : SesBody
deriving DecidableEq

structure SesDst where
  toAddresses : List String
  ccAddresses : List String
  bccAddresses : List String
deriving DecidableEq

structure SendEmailInput where
  source : String
  destination : SesDst
  message : SesMessage
deriving DecidableEq

/-- The text `Content` built by `computeSendEmailInput` lines 258-267: the
empty content when no text template is compiled, otherwise the rendered
body with charset UTF-8, or the wrapped rendering error. -/
def renderContentText (t? : Option (List TmplPart)) (ctx : List (String × String)) :
    Except String Content :=
  match t? with
  | none => .ok ⟨none, none⟩
  | some t =>
    match renderText t ctx with
    | .error e => .error ("Failed to render text template for recipient: " ++ e)
    | .ok s => .ok ⟨some s, some "UTF-8"⟩

/-- The HTML `Content` built by `computeSendEmailInput` lines 268-277. -/
def renderContentHtml (t? : Option (List TmplPart)) (ctx : List (String × String)) :
    Except String Content :=
  match t? with
  | none => .ok ⟨none, none⟩
  | some t =>
    match renderHtml t ctx with
    | .error e => .error ("Failed to render HTML template for recipient: " ++ e)
    | .ok s => .ok ⟨some s, some "UTF-8"⟩

/-- Go `computeSendEmailInput` (mailrail.go lines 256-292): render the two
bodies (text first, matching error precedence), then assemble the request. -/
def computeSendEmailInput (m : Mailing) (i : Nat) (mg : Mangler) :
    Except String SendEmailInput :=
  let recipient := m.spec.recipients.getD i default
  match renderContentText m.textTemplate recipient.context with
  | .error e => .error e
  | .ok textContent =>
    match renderContentHtml m.htmlTemplate recipient.context with
    | .error e => .error e
    | .ok htmlContent =>
      .ok { source := computeSource m i
            destination := ⟨[mg.mangle recipient.addr], [], []⟩
            message := ⟨⟨some (computeSubject m i), some "UTF-8"⟩,
                        ⟨htmlContent, textContent⟩⟩ }

/-- Convenience: whether an `Except` result is a success. -/
def isOkE {α : Type} (e : Except String α) : Bool :=
  match e with
  | .ok _ => true
  | .error _ => false

/-- Go `dryRun` inner loop over a list of recipient indices. -/
def dryRunAux (m : Mailing) (mg : Mangler) : List Nat → Except String Unit
  | [] => .ok ()
  | i :: rest =>
    match computeSendEmailInput m i mg with
    | .error e => .error ("Dry run failed for recipient: " ++ e)
    | .ok _ => dryRunAux m mg rest

/-- Go `dryRun` (mailrail.go lines 231-239): resolve every recipient in
order without transmitting; the first failure aborts. -/
def dryRun (m : Mailing) (mg : Mangler) : Except String Unit :=
  dryRunAux m mg (List.range m.spec.recipients.length)

/-! ## The checkpoint store (checkpoint.go) -/

/-- The state of the persisted `recipients_sent` job attribute as
`getCheckpoint` can observe it: absent (`os.IsNotExist`), unreadable for
another reason, readable but not valid JSON, or holding a stored count. -/
inductive CheckpointAttr
  | absent
  | ioError
  | malformed
  | stored (k : Nat)
deriving DecidableEq

/-- Go `getCheckpoint` (checkpoint.go lines 27-40): 0 when the attribute
does not exist; an error when the read fails otherwise or the JSON cannot
be parsed; else the stored count. -/
def getCheckpoint : CheckpointAttr → Except String Nat
  | .absent => .ok 0
  | .ioError => .error "failed to get checkpoint attribute"
  | .malformed => .error "Cannot parse contents of recipients_sent"
  | .stored k => .ok k

/-! ## The send loop (`processJob`, mailrail.go lines 132-196) -/

/-- One scheduled response of the SES service to a `SendEmail` call: a
message id, a service error carrying an awserr code, or a failure that is
not an awserr (for example a transport error). -/
inductive SendResult
  | ok (messageId : String)
  | errAws (code : String)
  | errPlain
deriving DecidableEq

/-- Whether a scheduled response is a success. -/
def SendResult.isOk : SendResult → Bool
  | .ok _ => true
  | _ => false

/-- The error `mailing.send` can return, as `processJob`'s classification
sees it: a non-awserr rendering failure from `computeSendEmailInput`, an
awserr with its code, or a non-awserr transmission failure. -/
inductive SendError
  | render (msg : String)
  | aws (code : String)
  | plain
deriving DecidableEq

/-- Observable actions of one `processJob` run, in order: a call of
`mailing.send` for recipient `i`, an actual `svc.SendEmail` call for
recipient `i`, a `tb.Backoff()` signal, and a successful checkpoint write
of value `v`. -/
inductive Event
  | attempt (i : Nat)
  | sesCall (i : Nat)
  | backoff
  | cpWrite (v : Nat)
deriving DecidableEq

/-- The terminal queue call of a run: `job.Finish()`, `job.Fail()`,
`job.Submit()`, or `stuck`, the model's marker that the scheduled SES
responses ran out while the loop was still going (the real loop would
keep waiting; no claim exercises this). -/
inductive Terminal
  | finished
  | failed
  | submitted
  | stuck
deriving DecidableEq

/-- Go `mailing.send` (mailrail.go lines 241-254) against the scheduled
service response: resolve the request; short-circuit with the sentinel
when the mangler suppresses sending; otherwise the SES call happens and
its scheduled outcome is returned.  The second component lists the
`svc.SendEmail` calls made (none or one). -/
def send (m : Mailing) (i : Nat) (mg : Mangler) (svcResult : SendResult) :
    Except SendError String × List Event :=
  match computeSendEmailInput m i mg with
  | .error e => (.error (.render e), [])
  | .ok _ =>
    if mg.shouldSend then
      match svcResult with
      | .ok messageId => (.ok messageId, [Event.sesCall i])
      | .errAws code => (.error (.aws code), [Event.sesCall i])
      | .errPlain => (.error .plain, [Event.sesCall i])
    else (.ok "NullMangler", [])

/-- The send loop of `processJob` (mailrail.go lines 159-194), from
recipient index `i` with `n` recipients, consuming one scheduled service
response per iteration.  Each iteration: wait for a rate token (not
observable), call `send`; on success write the checkpoint `i+1` (failure
of the write fails the job) and advance; on an awserr coded Throttling or
ServiceUnavailable signal backoff and retry the same index; on any other
error fail the job.  `cpOk v` tells whether the checkpoint write of value
`v` succeeds. -/
def runSend (m : Mailing) (mg : Mangler) (cpOk : Nat → Bool) (n : Nat) :
    Nat → List SendResult → List Event × Terminal
  | i, [] => if i < n then ([], .stuck) else ([], .finished)
  | i, r :: rest =>
    if i < n then
      match send m i mg r with
      | (.ok _, ev) =>
        if cpOk (i + 1) then
          let p := runSend m mg cpOk n (i + 1) rest
          (Event.attempt i :: (ev ++ Event.cpWrite (i + 1) :: p.1), p.2)
        else (Event.attempt i :: ev, .failed)
      | (.error (.aws code), ev) =>
        if code = "Throttling" then
          let p := runSend m mg cpOk n i rest
          (Event.attempt i :: (ev ++ Event.backoff :: p.1), p.2)
        else if code = "ServiceUnavailable" then
          let p := runSend m mg cpOk n i rest
          (Event.attempt i :: (ev ++ Event.backoff :: p.1), p.2)
        else (Event.attempt i :: ev, .failed)
      | (.error (.render _), ev) => (Event.attempt i :: ev, .failed)
      | (.error .plain, ev) => (Event.attempt i :: ev, .failed)
    else ([], .finished)

/-- Go `processJob` (mailrail.go lines 132-196).  `buildR` is the outcome
of `getMailing` (spec parse plus template compilation), `rateOk` the
success of the `GetSendQuota` rate query (its numeric value only seeds the
token bucket, which is not observable), `cp` the stored checkpoint
attribute, `cpOk` the success of each checkpoint write, `sched` the SES
response schedule. -/
def processJob (buildR : Except String Mailing) (rateOk : Bool)
    (cp : CheckpointAttr) (mg : Mangler) (cpOk : Nat → Bool)
    (sched : List SendResult) : List Event × Terminal :=
  match buildR with
  | .error _ => ([], .failed)
  | .ok m =>
    match dryRun m mg with
    | .error _ => ([], .failed)
    | .ok _ =>
      if rateOk then
        match getCheckpoint cp with
        | .error _ => ([], .failed)
        | .ok i => runSend m mg cpOk m.spec.recipients.length i sched
      else ([], .submitted)

/-! ## Trace observations -/

/-- The recipient indices of the `send` calls in a trace, in order. -/
def attemptsOf (t : List Event) : List Nat :=
  t.filterMap fun e =>
    match e with
    | .attempt i => some i
    | _ => none

/-- The checkpoint values successfully written in a trace, in order. -/
def cpWritesOf (t : List Event) : List Nat :=
  t.filterMap fun e =>
    match e with
    | .cpWrite v => some v
    | _ => none

/-- The recipient indices of actual `svc.SendEmail` calls in a trace. -/
def sesCallsOf (t : List Event) : List Nat :=
  t.filterMap fun e =>
    match e with
    | .sesCall i => some i
    | _ => none

/-! ## Specification-side definitions

These definitions follow the wording of spec.md (not the code); the
claims compare them against the code-side definitions above. -/

/-- Spec 4.1: effective from_name is the recipient's when non-empty, else
the job's. -/
def specEffFromName (m : Mailing) (i : Nat) : String :=
  let r := m.spec.recipients.getD i default
  if r.fromName ≠ "" then r.fromName else m.spec.fromName

/-- Spec 4.1: effective from_addr is the recipient's when non-empty, else
the job's. -/
def specEffFromAddr (m : Mailing) (i : Nat) : String :=
  let r := m.spec.recipients.getD i default
  if r.fromAddr ≠ "" then r.fromAddr else m.spec.fromAddr

/-- Spec 4.1: subject is the recipient's when non-empty, else the job's. -/
def specEffSubject (m : Mailing) (i : Nat) : String :=
  let r := m.spec.recipients.getD i default
  if r.subject ≠ "" then r.subject else m.spec.subject

/-- The source field exactly as claim C6 words it: the literal `<>` for an
empty effective address, the bare address for an empty effective name,
otherwise a display-name-plus-address pair in which a name containing any
non-ASCII character is MIME-encoded as a quoted-printable encoded word and
an ASCII name is quoted. -/
def claimC6Source (name addr : String) : String :=
  if addr = "" then "<>"
  else if name = "" then addr
  else if name.data.any isMultibyte then mimeQEncode name ++ " " ++ angleAddr addr
  else quoteString name ++ " " ++ angleAddr addr

/-- The source field as the amended claim C6 states it: `<>` for an empty
effective address, the bare address for an empty effective name; otherwise
a display name that consists entirely of printable ASCII (VCHAR, space,
tab) is quoted per RFC 5322, and any other name becomes a MIME
encoded word - base64 form when the name contains an RFC 2047 section 5.3
special character, quoted-printable form otherwise - followed by the
angle-bracketed address. -/
def specResolvedSource (name addr : String) : String :=
  if addr = "" then "<>"
  else if name = "" then addr
  else if allPrintable name = false then
    (if hasEncodedWordSpecial name then mimeBEncode name else mimeQEncode name)
      ++ " " ++ angleAddr addr
  else quoteString name ++ " " ++ angleAddr addr

/-- The text rendering the amended claim C4 describes: rendering never
fails on templates without field accesses; a reference to an absent
context key produces the placeholder text, never a failure. -/
def textRenderedSpec : List TmplPart → List (String × String) → String
  | [], _ => ""
  | .lit s :: rest, ctx => s ++ textRenderedSpec rest ctx
  | .var k :: rest, ctx => ((lookupCtx ctx k).getD "<no value>") ++ textRenderedSpec rest ctx
  | .varField _ _ :: rest, ctx => textRenderedSpec rest ctx

/-- The HTML rendering the amended claim C4 describes: a present key is
escaped and interpolated, an absent key renders as the empty string. -/
def htmlRenderedSpec : List TmplPart → List (String × String) → String
  | [], _ => ""
  | .lit s :: rest, ctx => s ++ htmlRenderedSpec rest ctx
  | .var k :: rest, ctx =>
    (match lookupCtx ctx k with
     | some v => htmlEscape v
     | none => "") ++ htmlRenderedSpec rest ctx
  | .varField _ _ :: rest, ctx => htmlRenderedSpec rest ctx

/-! ## The trace of a fault-free run -/

/-- The events of one fault-free send-loop iteration for recipient `j`:
a send call, the SES call when the mangler lets sending happen, and the
checkpoint write of `j+1`. -/
def okIter (ss : Bool) (j : Nat) : List Event :=
  if ss then [Event.attempt j, Event.sesCall j, Event.cpWrite (j + 1)]
  else [Event.attempt j, Event.cpWrite (j + 1)]

/-- The trace of `k` consecutive fault-free iterations starting at `i`. -/
def okTrace (ss : Bool) : Nat → Nat → List Event
  | _, 0 => []
  | i, k + 1 => okIter ss i ++ okTrace ss (i + 1) k

/-! ## Concrete fixtures used by witnesses and counterexamples -/

def recJane : Recipient :=
  ⟨"Jane Doe", "janedoe@example.com", "", "", "", [("pet_name", "Janie")]⟩

def recBob : Recipient :=
  ⟨"Bob", "bob@example.com", "", "", "", []⟩

/-- A spec with two recipients and a text template; recipient Bob's
context lacks the key, which renders as the placeholder, so resolution
succeeds for both recipients. -/
def mTwo : Mailing :=
  ⟨⟨"John Doe", "johndoe@example.com", "Hello", "", "tmplsrc", [recJane, recBob]⟩,
   some [.lit "Hello, ", .var "pet_name"], none⟩

/-- One recipient whose context lacks the key the text template references. -/
def mMissingKey : Mailing :=
  ⟨⟨"", "johndoe@example.com", "Hello", "", "tmplsrc",
    [⟨"Jane Doe", "janedoe@example.com", "", "", "", []⟩]⟩,
   some [.lit "Hello, ", .var "pet_name"], none⟩

/-- Recipient 0 resolves fine; recipient 1's context has the key on which
the template performs a field access, so resolving recipient 1 fails. -/
def mFieldErr : Mailing :=
  ⟨⟨"", "johndoe@example.com", "Hello", "", "tmplsrc",
    [recBob, recJane]⟩,
   some [.varField "pet_name" "sub"], none⟩

/-- HTML-only spec (empty text template source). -/
def mHtmlOnly : Mailing :=
  ⟨⟨"", "johndoe@example.com", "Hello", "htmlsrc", "", [recJane]⟩,
   none, some [.lit "<h1>Hi</h1>"]⟩

/-- Text-only spec (empty HTML template source). -/
def mTextOnly : Mailing :=
  ⟨⟨"", "johndoe@example.com", "Hello", "", "textsrc", [recJane]⟩,
   some [.lit "Hi"], none⟩

/-- A job-level from_name that is non-ASCII and contains an RFC 2047
section 5.3 special (the comma). -/
def mNonAsciiSpecial : Mailing :=
  ⟨⟨"Dø,", "a@b.c", "Hello", "", "textsrc", [recBob]⟩,
   some [.lit "Hi"], none⟩

/-- The request `computeSendEmailInput` builds for `mTextOnly`'s recipient
under the redirect-to mangler. -/
def inpToMe : SendEmailInput :=
  ⟨"johndoe@example.com", ⟨["me@x.com"], [], []⟩,
   ⟨⟨some "Hello", some "UTF-8"⟩, ⟨⟨none, none⟩, ⟨some "Hi", some "UTF-8"⟩⟩⟩⟩

/-- The request for `mTextOnly`'s recipient under the simulator mangler. -/
def inpSimulator : SendEmailInput :=
  ⟨"johndoe@example.com", ⟨["success@simulator.amazonses.com"], [], []⟩,
   ⟨⟨some "Hello", some "UTF-8"⟩, ⟨⟨none, none⟩, ⟨some "Hi", some "UTF-8"⟩⟩⟩⟩

/-- The request for `mTextOnly`'s recipient under the pass-through mangler. -/
def inpPassThrough : SendEmailInput :=
  ⟨"johndoe@example.com", ⟨["janedoe@example.com"], [], []⟩,
   ⟨⟨some "Hello", some "UTF-8"⟩, ⟨⟨none, none⟩, ⟨some "Hi", some "UTF-8"⟩⟩⟩⟩

/-- The request for `mHtmlOnly`'s recipient under the pass-through mangler. -/
def inpHtmlOnly : SendEmailInput :=
  ⟨"johndoe@example.com", ⟨["janedoe@example.com"], [], []⟩,
   ⟨⟨some "Hello", some "UTF-8"⟩, ⟨⟨some "<h1>Hi</h1>", some "UTF-8"⟩, ⟨none, none⟩⟩⟩⟩

/-! ## Helper lemmas -/

theorem attemptsOf_append (l1 l2 : List Event) :
    attemptsOf (l1 ++ l2) = attemptsOf l1 ++ attemptsOf l2 := by
  simp [attemptsOf, List.filterMap_append]

theorem cpWritesOf_append (l1 l2 : List Event) :
    cpWritesOf (l1 ++ l2) = cpWritesOf l1 ++ cpWritesOf l2 := by
  simp [cpWritesOf, List.filterMap_append]

theorem mem_attemptsOf (t : List Event) (j : Nat) :
    j ∈ attemptsOf t ↔ Event.attempt j ∈ t := by
  unfold attemptsOf
  rw [List.mem_filterMap]
  constructor
  · rintro ⟨a, ha, hfa⟩
    cases a <;> simp_all
  · intro h
    exact ⟨Event.attempt j, h, rfl⟩

theorem send_compute_ok (m : Mailing) (i : Nat) (mg : Mangler) (inp : SendEmailInput)
    (hinp : computeSendEmailInput m i mg = Except.ok inp) (r : SendResult) :
    send m i mg r =
      if mg.shouldSend then
        (match r with
         | .ok mid => ((Except.ok mid : Except SendError String), [Event.sesCall i])
         | .errAws code => (Except.error (SendError.aws code), [Event.sesCall i])
         | .errPlain => (Except.error SendError.plain, [Event.sesCall i]))
      else ((Except.ok "NullMangler" : Except SendError String), []) := by
  simp [send, hinp]

theorem dryRunAux_ok_iff (m : Mailing) (mg : Mangler) :
    ∀ l : List Nat, dryRunAux m mg l = Except.ok () ↔
      ∀ i ∈ l, isOkE (computeSendEmailInput m i mg) = true
  | [] => by simp [dryRunAux]
  | i :: rest => by
    cases hce : computeSendEmailInput m i mg with
    | error e =>
      simp only [dryRunAux, hce]
      constructor
      · intro h
        simp at h
      · intro h
        have hi := h i (List.mem_cons_self i rest)
        rw [hce] at hi
        simp [isOkE] at hi
    | ok inp =>
      simp only [dryRunAux, hce]
      rw [dryRunAux_ok_iff m mg rest]
      constructor
      · intro h j hj
        rcases List.mem_cons.mp hj with rfl | hj
        · rw [hce]; rfl
        · exact h j hj
      · intro h j hj
        exact h j (List.mem_cons_of_mem _ hj)

theorem dryRun_ok_iff (m : Mailing) (mg : Mangler) :
    dryRun m mg = Except.ok () ↔
      ∀ j < m.spec.recipients.length, isOkE (computeSendEmailInput m j mg) = true := by
  unfold dryRun
  rw [dryRunAux_ok_iff]
  constructor
  · intro h j hj
    exact h j (List.mem_range.mpr hj)
  · intro h j hj
    exact h j (List.mem_range.mp hj)

theorem cse_ok_elim (m : Mailing) (i : Nat) (mg : Mangler) (inp : SendEmailInput)
    (h : computeSendEmailInput m i mg = Except.ok inp) :
    ∃ tc hc,
      renderContentText m.textTemplate (m.spec.recipients.getD i default).context
          = Except.ok tc ∧
      renderContentHtml m.htmlTemplate (m.spec.recipients.getD i default).context
          = Except.ok hc ∧
      inp = ⟨computeSource m i,
             ⟨[mg.mangle (m.spec.recipients.getD i default).addr], [], []⟩,
             ⟨⟨some (computeSubject m i), some "UTF-8"⟩, ⟨hc, tc⟩⟩⟩ := by
  simp only [computeSendEmailInput] at h
  split at h
  · simp at h
  · rename_i tc htc
    split at h
    · simp at h
    · rename_i hcnt hhc
      refine ⟨tc, hcnt, htc, hhc, ?_⟩
      cases h
      rfl

theorem attemptsOf_okIter (ss : Bool) (j : Nat) : attemptsOf (okIter ss j) = [j] := by
  cases ss <;> simp [okIter, attemptsOf]

theorem cpWritesOf_okIter (ss : Bool) (j : Nat) : cpWritesOf (okIter ss j) = [j + 1] := by
  cases ss <;> simp [okIter, cpWritesOf]

theorem attemptsOf_okTrace (ss : Bool) :
    ∀ (k i : Nat), attemptsOf (okTrace ss i k) = List.range' i k
  | 0, i => by simp [okTrace, attemptsOf, List.range']
  | k + 1, i => by
    rw [show okTrace ss i (k + 1) = okIter ss i ++ okTrace ss (i + 1) k from rfl,
      attemptsOf_append, attemptsOf_okIter, attemptsOf_okTrace ss k (i + 1)]
    rfl

theorem cpWritesOf_okTrace (ss : Bool) :
    ∀ (k i : Nat), cpWritesOf (okTrace ss i k) = List.range' (i + 1) k
  | 0, i => by simp [okTrace, cpWritesOf, List.range']
  | k + 1, i => by
    rw [show okTrace ss i (k + 1) = okIter ss i ++ okTrace ss (i + 1) k from rfl,
      cpWritesOf_append, cpWritesOf_okIter, cpWritesOf_okTrace ss k (i + 1)]
    rfl

theorem runSend_allOk (m : Mailing) (mg : Mangler) (cpOk : Nat → Bool) (n : Nat)
    (hcp : ∀ v, cpOk v = true)
    (hc : ∀ j, j < n → isOkE (computeSendEmailInput m j mg) = true) :
    ∀ (sched : List SendResult) (i : Nat),
      (∀ r ∈ sched, r.isOk = true) → n - i ≤ sched.length →
      runSend m mg cpOk n i sched = (okTrace mg.shouldSend i (n - i), Terminal.finished)
  | [], i, _, hlen => by
    have hni : ¬ i < n := by simp at hlen; omega
    have h0 : n - i = 0 := by omega
    simp [runSend, hni, h0, okTrace]
  | r :: rest, i, hok, hlen => by
    by_cases hin : i < n
    · have hokr := hok r (List.mem_cons_self r rest)
      cases r with
      | errAws c => simp [SendResult.isOk] at hokr
      | errPlain => simp [SendResult.isOk] at hokr
      | ok mid =>
        have hco := hc i hin
        obtain ⟨inp, hinp⟩ : ∃ inp, computeSendEmailInput m i mg = Except.ok inp := by
          cases hce : computeSendEmailInput m i mg with
          | ok inp => exact ⟨inp, rfl⟩
          | error e => rw [hce] at hco; simp [isOkE] at hco
        have hrec := runSend_allOk m mg cpOk n hcp hc rest (i + 1)
          (fun r hr => hok r (List.mem_cons_of_mem _ hr))
          (by simp at hlen ⊢; omega)
        have hstep : n - i = (n - (i + 1)) + 1 := by omega
        cases hss : mg.shouldSend with
        | true =>
          have hsend : send m i mg (SendResult.ok mid) =
              ((Except.ok mid : Except SendError String), [Event.sesCall i]) := by
            rw [send_compute_ok m i mg inp hinp, hss]
            simp
          simp only [runSend, hin, if_true, hsend, hcp (i + 1), hrec]
          rw [hstep]
          simp [okTrace, okIter, hss]
        | false =>
          have hsend : send m i mg (SendResult.ok mid) =
              ((Except.ok "NullMangler" : Except SendError String), []) := by
            rw [send_compute_ok m i mg inp hinp, hss]
            simp
          simp only [runSend, hin, if_true, hsend, hcp (i + 1), hrec]
          rw [hstep]
          simp [okTrace, okIter, hss]
    · have h0 : n - i = 0 := by omega
      simp [runSend, hin, h0, okTrace]

theorem processJob_loop (m : Mailing) (mg : Mangler) (cpOk : Nat → Bool)
    (sched : List SendResult) (k : Nat) (hdry : dryRun m mg = Except.ok ()) :
    processJob (Except.ok m) true (CheckpointAttr.stored k) mg cpOk sched
      = runSend m mg cpOk m.spec.recipients.length k sched := by
  simp [processJob, hdry, getCheckpoint]

/-! ## Claim C1 -/

/-- C1: for every spec with N recipients, starting from checkpoint 0, when
every transmission attempt and every checkpoint write succeeds, processJob
performs exactly N transmission attempts (one per recipient, in index
order 0..N-1), writes the checkpoint with the values 1,2,...,N in that
order, and calls Finish exactly once (and never Fail or Submit).  Every
return path of the Go `processJob` makes exactly one terminal queue call,
modeled as the `Terminal` result, so "Finish exactly once, never Fail or
Submit" is the terminal being `finished`. -/
theorem c1_fault_free_run (m : Mailing) (mg : Mangler) (cpOk : Nat → Bool)
    (sched : List SendResult)
    (hdry : dryRun m mg = Except.ok ())
    (hsched : ∀ r ∈ sched, r.isOk = true)
    (hlen : m.spec.recipients.length ≤ sched.length)
    (hcp : ∀ v, cpOk v = true) :
    attemptsOf (processJob (Except.ok m) true (CheckpointAttr.stored 0) mg cpOk sched).1
        = List.range m.spec.recipients.length ∧
    cpWritesOf (processJob (Except.ok m) true (CheckpointAttr.stored 0) mg cpOk sched).1
        = List.range' 1 m.spec.recipients.length ∧
    (processJob (Except.ok m) true (CheckpointAttr.stored 0) mg cpOk sched).2
        = Terminal.finished := by
  have hc := (dryRun_ok_iff m mg).mp hdry
  rw [processJob_loop m mg cpOk sched 0 hdry]
  rw [runSend_allOk m mg cpOk m.spec.recipients.length hcp hc sched 0 hsched
    (by omega)]
  refine ⟨?_, ?_, rfl⟩
  · rw [show m.spec.recipients.length - 0 = m.spec.recipients.length from rfl,
      attemptsOf_okTrace, List.range_eq_range']
  · rw [show m.spec.recipients.length - 0 = m.spec.recipients.length from rfl,
      cpWritesOf_okTrace]

/-- Witness for C1 on a concrete two-recipient job. -/
theorem c1_witness :
    attemptsOf (processJob (Except.ok mTwo) true (CheckpointAttr.stored 0) DoNotMangle
        (fun _ => true) [SendResult.ok "a", SendResult.ok "b"]).1 = List.range 2 ∧
    cpWritesOf (processJob (Except.ok mTwo) true (CheckpointAttr.stored 0) DoNotMangle
        (fun _ => true) [SendResult.ok "a", SendResult.ok "b"]).1 = List.range' 1 2 ∧
    (processJob (Except.ok mTwo) true (CheckpointAttr.stored 0) DoNotMangle
        (fun _ => true) [SendResult.ok "a", SendResult.ok "b"]).2 = Terminal.finished :=
  c1_fault_free_run mTwo DoNotMangle (fun _ => true)
    [SendResult.ok "a", SendResult.ok "b"] rfl (by decide) (by decide) (fun _ => rfl)

theorem send_snd (m : Mailing) (i : Nat) (mg : Mangler) (r : SendResult) :
    (send m i mg r).2 = [] ∨ (send m i mg r).2 = [Event.sesCall i] := by
  unfold send
  split
  · exact Or.inl rfl
  · split
    · cases r <;> exact Or.inr rfl
    · exact Or.inl rfl

theorem runSend_attempt_bound (m : Mailing) (mg : Mangler) (cpOk : Nat → Bool) (n : Nat) :
    ∀ (sched : List SendResult) (i j : Nat),
      Event.attempt j ∈ (runSend m mg cpOk n i sched).1 → i ≤ j ∧ j < n
  | [], i, j => by
    simp only [runSend]
    split <;> simp
  | r :: rest, i, j => by
    intro hj
    by_cases hin : i < n
    · have hev := send_snd m i mg r
      rcases hsd : send m i mg r with ⟨res, ev⟩
      rw [hsd] at hev
      simp only at hev
      rcases hev with rfl | rfl <;>
      cases res with
      | ok mid =>
        by_cases hcpw : cpOk (i + 1) = true
        · simp [runSend, hin, hsd, hcpw] at hj
          rcases hj with rfl | hj
          · exact ⟨Nat.le_refl _, hin⟩
          · have hb := runSend_attempt_bound m mg cpOk n rest (i + 1) j hj
            exact ⟨by omega, hb.2⟩
        · simp [runSend, hin, hsd, hcpw] at hj
          subst hj
          exact ⟨Nat.le_refl _, hin⟩
      | error err =>
        cases err with
        | aws code =>
          by_cases hc1 : code = "Throttling"
          · simp [runSend, hin, hsd, hc1] at hj
            rcases hj with rfl | hj
            · exact ⟨Nat.le_refl _, hin⟩
            · exact runSend_attempt_bound m mg cpOk n rest i j hj
          · by_cases hc2 : code = "ServiceUnavailable"
            · simp [runSend, hin, hsd, hc1, hc2] at hj
              rcases hj with rfl | hj
              · exact ⟨Nat.le_refl _, hin⟩
              · exact runSend_attempt_bound m mg cpOk n rest i j hj
            · simp [runSend, hin, hsd, hc1, hc2] at hj
              subst hj
              exact ⟨Nat.le_refl _, hin⟩
        | render msg =>
          simp [runSend, hin, hsd] at hj
          subst hj
          exact ⟨Nat.le_refl _, hin⟩
        | plain =>
          simp [runSend, hin, hsd] at hj
          subst hj
          exact ⟨Nat.le_refl _, hin⟩
    · simp [runSend, hin] at hj

/-! ## Claim C2 -/

/-- C2: for every job whose stored checkpoint is k (0 <= k <= N) and whose
build, dry run, and rate query succeed, processJob attempts transmission
only for recipient indices k..N-1 and never for indices 0..k-1; when the
checkpoint attribute is absent, the resume index is 0. -/
theorem c2_resume_from_checkpoint (m : Mailing) (mg : Mangler) (cpOk : Nat → Bool)
    (sched : List SendResult) (k : Nat)
    (hdry : dryRun m mg = Except.ok ())
    (hk : k ≤ m.spec.recipients.length) :
    (∀ j ∈ attemptsOf
        (processJob (Except.ok m) true (CheckpointAttr.stored k) mg cpOk sched).1,
      k ≤ j ∧ j < m.spec.recipients.length) ∧
    getCheckpoint CheckpointAttr.absent = Except.ok 0 := by
  refine ⟨?_, rfl⟩
  intro j hj
  rw [processJob_loop m mg cpOk sched k hdry] at hj
  exact runSend_attempt_bound m mg cpOk _ sched k j ((mem_attemptsOf _ j).mp hj)

/-- Witness for C2: resuming the concrete two-recipient job at checkpoint 1
yields an attempt at index 1 only, which indeed satisfies 1 <= j < 2. -/
theorem c2_witness :
    (1 ≤ 1 ∧ 1 < 2) ∧ getCheckpoint CheckpointAttr.absent = Except.ok 0 := by
  have h := c2_resume_from_checkpoint mTwo DoNotMangle (fun _ => true)
    [SendResult.ok "a"] 1 rfl (by decide)
  exact ⟨h.1 1 (by decide), h.2⟩

/-! ## Claim C3 -/

/-- C3: in the send loop, for recipient i with the request resolvable and a
sending mangler: a service error coded Throttling or ServiceUnavailable
yields a backoff signal to the rate source and the loop continues at the
same index i, with no checkpoint write emitted (the stored checkpoint is
untouched); any other awserr code, and any non-awserr failure, fails the
job immediately, the trace ending at that recipient with no checkpoint
write and no further events. -/
theorem c3_transient_backoff_fatal_fail (m : Mailing) (mg : Mangler)
    (cpOk : Nat → Bool) (n i : Nat) (rest : List SendResult) (code : String)
    (hin : i < n) (hok : isOkE (computeSendEmailInput m i mg) = true)
    (hss : mg.shouldSend = true) :
    ((code = "Throttling" ∨ code = "ServiceUnavailable") →
      runSend m mg cpOk n i (SendResult.errAws code :: rest) =
        (Event.attempt i :: Event.sesCall i :: Event.backoff ::
            (runSend m mg cpOk n i rest).1,
          (runSend m mg cpOk n i rest).2)) ∧
    (code ≠ "Throttling" → code ≠ "ServiceUnavailable" →
      runSend m mg cpOk n i (SendResult.errAws code :: rest) =
        ([Event.attempt i, Event.sesCall i], Terminal.failed)) ∧
    runSend m mg cpOk n i (SendResult.errPlain :: rest) =
      ([Event.attempt i, Event.sesCall i], Terminal.failed) := by
  obtain ⟨inp, hinp⟩ : ∃ inp, computeSendEmailInput m i mg = Except.ok inp := by
    cases hce : computeSendEmailInput m i mg with
    | ok inp => exact ⟨inp, rfl⟩
    | error e => rw [hce] at hok; simp [isOkE] at hok
  have hsendA : send m i mg (SendResult.errAws code) =
      (Except.error (SendError.aws code), [Event.sesCall i]) := by
    rw [send_compute_ok m i mg inp hinp, hss]
    simp
  have hsendP : send m i mg SendResult.errPlain =
      (Except.error SendError.plain, [Event.sesCall i]) := by
    rw [send_compute_ok m i mg inp hinp, hss]
    simp
  refine ⟨?_, ?_, ?_⟩
  · rintro (rfl | rfl) <;> simp [runSend, hin, hsendA]
  · intro h1 h2
    simp [runSend, hin, hsendA, h1, h2]
  · simp [runSend, hin, hsendP]

/-- Witness for C3 on the concrete job: a throttling response backs off and
leaves the loop at index 0; a fatal code fails at once. -/
theorem c3_witness :
    runSend mTwo DoNotMangle (fun _ => true) 2 0 [SendResult.errAws "Throttling"] =
      ([Event.attempt 0, Event.sesCall 0, Event.backoff], Terminal.stuck) ∧
    runSend mTwo DoNotMangle (fun _ => true) 2 0 [SendResult.errAws "MessageRejected"] =
      ([Event.attempt 0, Event.sesCall 0], Terminal.failed) := by
  have h1 := c3_transient_backoff_fatal_fail mTwo DoNotMangle (fun _ => true) 2 0 []
    "Throttling" (by decide) (by decide) rfl
  have h2 := c3_transient_backoff_fatal_fail mTwo DoNotMangle (fun _ => true) 2 0 []
    "MessageRejected" (by decide) (by decide) rfl
  constructor
  · rw [h1.1 (Or.inl rfl)]
    rfl
  · exact h2.2.1 (by decide) (by decide)

/-! ## Claim C9 -/

/-- C9: if the rate query fails, processJob calls Submit on that path (never
Fail); no recipient is transmitted (the trace is empty) and no checkpoint
write occurs. -/
theorem c9_rate_query_failure_resubmits (m : Mailing) (mg : Mangler)
    (cp : CheckpointAttr) (cpOk : Nat → Bool) (sched : List SendResult)
    (hdry : dryRun m mg = Except.ok ()) :
    processJob (Except.ok m) false cp mg cpOk sched = ([], Terminal.submitted) := by
  simp [processJob, hdry]

/-- Witness for C9 on the concrete job. -/
theorem c9_witness :
    processJob (Except.ok mTwo) false CheckpointAttr.absent DoNotMangle
      (fun _ => true) [SendResult.ok "a"] = ([], Terminal.submitted) :=
  c9_rate_query_failure_resubmits mTwo DoNotMangle CheckpointAttr.absent
    (fun _ => true) [SendResult.ok "a"] rfl

/-! ## Claim C10 -/

/-- C10: a stored checkpoint at or above the recipient count (including the
empty recipient list) makes processJob perform zero transmission attempts,
write nothing, and call Finish: the loop guard fails at once and the
over-large value is never validated against N. -/
theorem c10_overlarge_checkpoint_finishes (m : Mailing) (mg : Mangler)
    (cpOk : Nat → Bool) (sched : List SendResult) (k : Nat)
    (hdry : dryRun m mg = Except.ok ())
    (hk : m.spec.recipients.length ≤ k) :
    processJob (Except.ok m) true (CheckpointAttr.stored k) mg cpOk sched
      = ([], Terminal.finished) := by
  rw [processJob_loop m mg cpOk sched k hdry]
  have hnk : ¬ k < m.spec.recipients.length := by omega
  cases sched <;> simp [runSend, hnk]

/-- Witness for C10: checkpoint 5 on the two-recipient job finishes with an
empty trace. -/
theorem c10_witness :
    processJob (Except.ok mTwo) true (CheckpointAttr.stored 5) DoNotMangle
      (fun _ => true) [SendResult.ok "a"] = ([], Terminal.finished) :=
  c10_overlarge_checkpoint_finishes mTwo DoNotMangle (fun _ => true)
    [SendResult.ok "a"] 5 rfl (by decide)

/-! ## Claim C8 -/

/-- C8: the dry run succeeds exactly when `resolve` succeeds for every
recipient index (so a success has resolved all of them before anything is
transmitted), and whenever some recipient fails to resolve, processJob
reaches Failed with an empty trace: zero transmission attempts, zero SES
calls, no checkpoint write. -/
theorem c8_dry_run_gates_sending (m : Mailing) (mg : Mangler) (rateOk : Bool)
    (cp : CheckpointAttr) (cpOk : Nat → Bool) (sched : List SendResult) :
    (dryRun m mg = Except.ok () ↔
      ∀ j < m.spec.recipients.length, isOkE (computeSendEmailInput m j mg) = true) ∧
    ((∃ j, j < m.spec.recipients.length ∧
        isOkE (computeSendEmailInput m j mg) = false) →
      processJob (Except.ok m) rateOk cp mg cpOk sched = ([], Terminal.failed)) := by
  refine ⟨dryRun_ok_iff m mg, ?_⟩
  rintro ⟨j, hj, hbad⟩
  cases hd : dryRun m mg with
  | error e => simp [processJob, hd]
  | ok u =>
    cases u
    have hgood := (dryRun_ok_iff m mg).mp hd j hj
    rw [hgood] at hbad
    simp at hbad

/-- Witness for C8: recipient 1 of the concrete job fails to resolve (field
access on a present context value), so the job fails with an empty trace
even though recipient 0 resolves. -/
theorem c8_witness :
    processJob (Except.ok mFieldErr) true CheckpointAttr.absent DoNotMangle
      (fun _ => true) [SendResult.ok "a"] = ([], Terminal.failed) :=
  (c8_dry_run_gates_sending mFieldErr DoNotMangle true CheckpointAttr.absent
    (fun _ => true) [SendResult.ok "a"]).2 ⟨1, by decide, by decide⟩

/-! ## Claim C5 -/

/-- C5: for a spec whose text template source is empty and HTML source
non-empty, the built transmission request has the text body data and
charset absent (nil pointers, not empty strings) and the HTML body data
present; and symmetrically for an HTML-empty, text-non-empty spec. -/
theorem c5_single_body_spec_omits_other (m : Mailing) (i : Nat) (mg : Mangler)
    (inp : SendEmailInput)
    (hw : wellCompiled m)
    (hres : computeSendEmailInput m i mg = Except.ok inp) :
    (m.spec.text = "" → m.spec.html ≠ "" →
      inp.message.body.text.data = none ∧ inp.message.body.text.charset = none ∧
      inp.message.body.html.data.isSome = true) ∧
    (m.spec.html = "" → m.spec.text ≠ "" →
      inp.message.body.html.data = none ∧ inp.message.body.html.charset = none ∧
      inp.message.body.text.data.isSome = true) := by
  obtain ⟨tc, hcnt, htc, hhc, rfl⟩ := cse_ok_elim m i mg inp hres
  constructor
  · intro htext hhtml
    have htt : m.textTemplate = none := by
      cases h : m.textTemplate with
      | none => rfl
      | some t =>
        have := hw.1.mp (by rw [h]; rfl)
        exact absurd htext this
    obtain ⟨t, hht⟩ : ∃ t, m.htmlTemplate = some t := by
      cases h : m.htmlTemplate with
      | some t => exact ⟨t, rfl⟩
      | none =>
        have := hw.2.mpr hhtml
        rw [h] at this
        simp at this
    rw [htt] at htc
    have htc' : tc = ⟨none, none⟩ := by
      simp [renderContentText] at htc
      exact htc.symm
    rw [hht] at hhc
    obtain ⟨s, hhc'⟩ : ∃ s, hcnt = ⟨some s, some "UTF-8"⟩ := by
      simp only [renderContentHtml] at hhc
      split at hhc
      · simp at hhc
      · rename_i s hs
        exact ⟨s, by cases hhc; rfl⟩
    subst htc'
    subst hhc'
    exact ⟨rfl, rfl, rfl⟩
  · intro hhtml htext
    have hht : m.htmlTemplate = none := by
      cases h : m.htmlTemplate with
      | none => rfl
      | some t =>
        have := hw.2.mp (by rw [h]; rfl)
        exact absurd hhtml this
    obtain ⟨t, htt⟩ : ∃ t, m.textTemplate = some t := by
      cases h : m.textTemplate with
      | some t => exact ⟨t, rfl⟩
      | none =>
        have := hw.1.mpr htext
        rw [h] at this
        simp at this
    rw [hht] at hhc
    have hhc' : hcnt = ⟨none, none⟩ := by
      simp [renderContentHtml] at hhc
      exact hhc.symm
    rw [htt] at htc
    obtain ⟨s, htc'⟩ : ∃ s, tc = ⟨some s, some "UTF-8"⟩ := by
      simp only [renderContentText] at htc
      split at htc
      · simp at htc
      · rename_i s hs
        exact ⟨s, by cases htc; rfl⟩
    subst hhc'
    subst htc'
    exact ⟨rfl, rfl, rfl⟩

/-- Witness for C5 on a concrete HTML-only job: text data and charset are
nil, HTML data is present. -/
theorem c5_witness :
    computeSendEmailInput mHtmlOnly 0 DoNotMangle = Except.ok inpHtmlOnly ∧
    inpHtmlOnly.message.body.text.data = none ∧
    inpHtmlOnly.message.body.text.charset = none ∧
    inpHtmlOnly.message.body.html.data.isSome = true := by
  have h := (c5_single_body_spec_omits_other mHtmlOnly 0 DoNotMangle inpHtmlOnly
    (by decide) rfl).1 rfl (by decide)
  exact ⟨rfl, h.1, h.2.1, h.2.2⟩

/-! ## Claim C7 -/

/-- C7: a mangler with shouldSend false makes the send step perform zero
calls to the transmission service and return the sentinel "NullMangler"
result instead of a message id; the redirect manglers set the request
destination to their configured constant address regardless of the
recipient's address; the pass-through mangler leaves the destination equal
to the recipient's address. -/
theorem c7_mangler_behavior (m : Mailing) (i : Nat) (svcResult : SendResult)
    (a : String) (inp1 inp2 inp3 : SendEmailInput) :
    ((send m i DoNotSend svcResult).2 = [] ∧
      (isOkE (computeSendEmailInput m i DoNotSend) = true →
        (send m i DoNotSend svcResult).1 = Except.ok "NullMangler")) ∧
    (computeSendEmailInput m i (SendToMe a) = Except.ok inp1 →
      inp1.destination.toAddresses = [a]) ∧
    (computeSendEmailInput m i SendToSimulator = Except.ok inp2 →
      inp2.destination.toAddresses = ["success@simulator.amazonses.com"]) ∧
    (computeSendEmailInput m i DoNotMangle = Except.ok inp3 →
      inp3.destination.toAddresses = [(m.spec.recipients.getD i default).addr]) := by
  refine ⟨⟨?_, ?_⟩, ?_, ?_, ?_⟩
  · unfold send
    split
    · rfl
    · simp [DoNotSend]
  · intro hok
    obtain ⟨inp, hinp⟩ : ∃ inp, computeSendEmailInput m i DoNotSend = Except.ok inp := by
      cases hce : computeSendEmailInput m i DoNotSend with
      | ok inp => exact ⟨inp, rfl⟩
      | error e => rw [hce] at hok; simp [isOkE] at hok
    rw [send_compute_ok m i DoNotSend inp hinp]
    simp [DoNotSend]
  · intro h
    obtain ⟨tc, hcnt, htc, hhc, rfl⟩ := cse_ok_elim m i (SendToMe a) inp1 h
    simp [SendToMe, alwaysAddr]
  · intro h
    obtain ⟨tc, hcnt, htc, hhc, rfl⟩ := cse_ok_elim m i SendToSimulator inp2 h
    simp [SendToSimulator, alwaysAddr]
  · intro h
    obtain ⟨tc, hcnt, htc, hhc, rfl⟩ := cse_ok_elim m i DoNotMangle inp3 h
    simp [DoNotMangle, identityAddr]

/-- Witness for C7 on the concrete text-only job: the suppressed send makes
no SES call and returns the sentinel; the two redirect manglers force
their constant destinations; pass-through keeps the recipient address. -/
theorem c7_witness :
    (send mTextOnly 0 DoNotSend (SendResult.errPlain)).2 = [] ∧
    (send mTextOnly 0 DoNotSend (SendResult.errPlain)).1 = Except.ok "NullMangler" ∧
    computeSendEmailInput mTextOnly 0 (SendToMe "me@x.com") = Except.ok inpToMe ∧
    inpToMe.destination.toAddresses = ["me@x.com"] ∧
    computeSendEmailInput mTextOnly 0 SendToSimulator = Except.ok inpSimulator ∧
    inpSimulator.destination.toAddresses = ["success@simulator.amazonses.com"] ∧
    computeSendEmailInput mTextOnly 0 DoNotMangle = Except.ok inpPassThrough ∧
    inpPassThrough.destination.toAddresses = ["janedoe@example.com"] := by
  have h := c7_mangler_behavior mTextOnly 0 SendResult.errPlain "me@x.com"
    inpToMe inpSimulator inpPassThrough
  exact ⟨h.1.1, h.1.2 (by decide), rfl, h.2.1 rfl, rfl, h.2.2.1 rfl, rfl, h.2.2.2 rfl⟩

/-! ## Claim C4 -/

/-- Counterexample to C4 as stated: the text template referencing the
absent key `pet_name` renders successfully with the placeholder text
substituted - not a failure, not blank-free - and the job reaches
Finished, not Failed. -/
theorem c4_counterexample :
    renderText [TmplPart.lit "Hello, ", TmplPart.var "pet_name"] [] =
      Except.ok "Hello, <no value>" ∧
    processJob (Except.ok mMissingKey) true CheckpointAttr.absent DoNotMangle
        (fun _ => true) [SendResult.ok "mid0"] =
      ([Event.attempt 0, Event.sesCall 0, Event.cpWrite 1], Terminal.finished) ∧
    (processJob (Except.ok mMissingKey) true CheckpointAttr.absent DoNotMangle
        (fun _ => true) [SendResult.ok "mid0"]).2 ≠ Terminal.failed := by
  refine ⟨rfl, by decide, by decide⟩

/-- Amended C4: rendering a template with no field accesses never fails;
a text-template reference to an absent context key renders the literal
placeholder text in place (and an HTML-template reference to an absent key
renders as the empty string), so the job proceeds rather than failing. -/
theorem c4_missing_key_renders_placeholder (t : List TmplPart)
    (ctx : List (String × String))
    (hnf : ∀ k f, TmplPart.varField k f ∉ t) :
    renderText t ctx = Except.ok (textRenderedSpec t ctx) ∧
    renderHtml t ctx = Except.ok (htmlRenderedSpec t ctx) := by
  induction t with
  | nil => exact ⟨rfl, rfl⟩
  | cons p rest ih =>
    have hnf' : ∀ k f, TmplPart.varField k f ∉ rest :=
      fun k f h => hnf k f (List.mem_cons_of_mem _ h)
    obtain ⟨ih1, ih2⟩ := ih hnf'
    cases p with
    | lit s =>
      simp [renderText, renderHtml, renderTextPart, renderHtmlPart,
        textRenderedSpec, htmlRenderedSpec, ih1, ih2]
    | var k =>
      cases hlk : lookupCtx ctx k <;>
        simp [renderText, renderHtml, renderTextPart, renderHtmlPart,
          textRenderedSpec, htmlRenderedSpec, ih1, ih2, hlk]
    | varField k f => exact absurd (List.mem_cons_self _ _) (hnf k f)

/-- Witness for the amended C4: the concrete missing-key template renders
both ways, with the placeholder in the text body. -/
theorem c4_witness :
    renderText [TmplPart.lit "Hello, ", TmplPart.var "pet_name"] [("x", "y")] =
      Except.ok (textRenderedSpec [TmplPart.lit "Hello, ", TmplPart.var "pet_name"]
        [("x", "y")]) ∧
    renderHtml [TmplPart.lit "Hello, ", TmplPart.var "pet_name"] [("x", "y")] =
      Except.ok (htmlRenderedSpec [TmplPart.lit "Hello, ", TmplPart.var "pet_name"]
        [("x", "y")]) :=
  c4_missing_key_renders_placeholder
    [TmplPart.lit "Hello, ", TmplPart.var "pet_name"] [("x", "y")]
    (by intro k f h; simp at h)

/-! ## Claim C6 -/

/-- Counterexample to C6 as stated: the effective from_name contains a
non-ASCII character, but because it also contains a comma (an RFC 2047
section 5.3 special) the display name is base64-encoded, not
quoted-printable-encoded as the claim requires. -/
theorem c6_counterexample :
    computeSource mNonAsciiSpecial 0 = "=?utf-8?b?RMO4LA==?= <a@b.c>" ∧
    computeSource mNonAsciiSpecial 0 ≠ claimC6Source "Dø," "a@b.c" := by
  refine ⟨by decide, by decide⟩

theorem mailAddressString_cases (name addr : String) (hn : name ≠ "") :
    mailAddressString name addr =
      if allPrintable name = false then
        (if hasEncodedWordSpecial name then mimeBEncode name else mimeQEncode name)
          ++ " " ++ angleAddr addr
      else quoteString name ++ " " ++ angleAddr addr := by
  unfold mailAddressString
  by_cases hap : allPrintable name <;>
    by_cases hsp : hasEncodedWordSpecial name <;>
      simp [hn, hap, hsp]

/-- Amended C6: subject, from_name and from_addr resolve with the
recipient-level value when non-empty and the job-level value otherwise;
the source is `<>` for an empty effective address, the bare address for an
empty effective name, and otherwise a display-name-plus-address pair where
a name made entirely of printable ASCII is RFC 5322 quoted, and any other
name becomes a MIME encoded word: base64 form when the name contains an
RFC 2047 section 5.3 special character, quoted-printable form otherwise. -/
theorem c6_source_resolution (m : Mailing) (i : Nat)
    (hi : i < m.spec.recipients.length) :
    computeSource m i =
      specResolvedSource (specEffFromName m i) (specEffFromAddr m i) ∧
    computeSubject m i = specEffSubject m i := by
  constructor
  · have hname : (if (m.spec.recipients.getD i default).fromName ≠ "" then
          (m.spec.recipients.getD i default).fromName
        else if m.spec.fromName ≠ "" then m.spec.fromName else "") =
        specEffFromName m i := by
      simp only [specEffFromName]
      split_ifs with h1 h2
      · rfl
      · rfl
      · exact (not_ne_iff.mp h2).symm
    have haddr : (if (m.spec.recipients.getD i default).fromAddr ≠ "" then
          (m.spec.recipients.getD i default).fromAddr
        else m.spec.fromAddr) = specEffFromAddr m i := by
      simp only [specEffFromAddr]
    simp only [computeSource, specResolvedSource]
    rw [hname, haddr]
    by_cases ha : specEffFromAddr m i = ""
    · simp [ha]
    · by_cases hn : specEffFromName m i = ""
      · simp [ha, hn]
      · rw [if_neg ha, if_neg ha, if_neg hn, if_neg hn,
          mailAddressString_cases _ _ hn]
  · rfl

/-- Witness for the amended C6 on the concrete non-ASCII-with-special job. -/
theorem c6_witness :
    computeSource mNonAsciiSpecial 0 =
      specResolvedSource (specEffFromName mNonAsciiSpecial 0)
        (specEffFromAddr mNonAsciiSpecial 0) ∧
    computeSubject mNonAsciiSpecial 0 = specEffSubject mNonAsciiSpecial 0 :=
  c6_source_resolution mNonAsciiSpecial 0 (by decide)
